import Mathlib

/-!
Verification development for the `siplus` CLI front end (`src/main.cpp`).

The embedding models the argument-to-context pipeline of the program:
command-line parsing (`parse_args`, `parse_val`, `read_file`), output-sink
selection, the staged orchestration in `main`, and the fatal-signal handler
(`signal_handler`).  The template engine (`SIPlus::Parser`,
`TextConstructor`, `make_data`) is an external library; it is modelled as an
abstract `Engine` whose compile and render steps may fail, and
`make_data` as an injective wrapper of the raw string.  File-system access
is a parameter `FS`.  Process-level effects are made explicit: printed
lines, sink writes, and owned-resource releases (the `stream_wrapper`
deleter running when `main`'s scope ends) appear in an `Outcome` record.
-/

namespace Siplus

/-- Model of `SIPlus::text::UnknownDataTypeContainer`: default-constructed
(`empty`, as in `Args::default_value` before `-d` is seen) or holding the
coerced raw string. -/
inductive UDTC where
  | empty : UDTC
  | data : String → UDTC
deriving DecidableEq, Repr

/-- Model of `SIPlus::text::make_data`: coerces a raw string into a typed
value.  The library's internal representation is opaque; the model keeps the
raw string, which is all the claims observe. -/
def make_data (s : String) : UDTC := UDTC.data s

/-- The ambient file system, a parameter of the embedding: `read f` is
`some` contents when `f` is readable, `none` otherwise; `writable f` tells
whether opening `f` for writing succeeds. -/
structure FS where
  read : String → Option String
  writable : String → Bool

/-- Model of `read_file` (main.cpp:73-78).  A `std::ifstream` on a missing or
unreadable file opens in a failed state; streaming its `rdbuf` into the
`stringstream` transfers no characters, so the function returns the empty
string rather than failing. -/
def read_file (fs : FS) (file : String) : String :=
  match fs.read file with
  | some contents => contents
  | none => ""

/-- The output sink held in `Args::out`.  `undef` is the default-constructed
null `unique_ptr` (before `parse_args` assigns it); `stdout` wraps
`std::cout` without a deleter; `file p opened` is the `-o` case: a
`new std::ofstream{p}` owned through the `stream_wrapper` deleter, with
`opened` recording whether the underlying open succeeded (the code never
inspects this). -/
inductive Sink where
  | undef : Sink
  | stdout : Sink
  | file : String → Bool → Sink
deriving DecidableEq, Repr

/-- The parser state: the fields of `struct Args` (main.cpp:36-41) together
with the three local `*_specified` flags of `parse_args` (main.cpp:91-93).
`args` is an association list standing for the `unordered_map`; lookups go
through `mfind` and duplicates never arise because insertion is guarded. -/
structure St where
  input : String
  out : Sink
  default_value : UDTC
  args : List (String × UDTC)
  input_specified : Bool
  output_specified : Bool
  default_specified : Bool
deriving DecidableEq, Repr

/-- The default-constructed `Args` plus the initial flag values
(main.cpp:91-93, 160). -/
def initSt : St :=
  { input := ""
    out := Sink.undef
    default_value := UDTC.empty
    args := []
    input_specified := false
    output_specified := false
    default_specified := false }

/-- Lookup in the modelled `unordered_map` (`args.args.find(name)`). -/
def mfind (m : List (String × UDTC)) (k : String) : Option UDTC :=
  match m with
  | [] => none
  | (k', v) :: rest => if k' = k then some v else mfind rest k

/-- Split a character list at the first `'='`: the core of
`val.find('=')` / `substr` in `parse_val`.  `none` when no `'='` occurs. -/
def splitEq : List Char → Option (List Char × List Char)
  | [] => none
  | c :: cs =>
    if c = '=' then some ([], cs)
    else
      match splitEq cs with
      | some (n, v) => some (c :: n, v)
      | none => none

/-- Model of `parse_val` (main.cpp:80-88): find the first `'='`, return the
name before it and the raw value after it; `none` models the thrown
"Could not find value in ..." error. -/
def parse_val (val : String) : Option (String × String) :=
  match splitEq val.data with
  | some (n, v) => some (⟨n⟩, ⟨v⟩)
  | none => none

/-- Outcome of the token loop of `parse_args` (main.cpp:95-140).  `help` is
the `std::exit(0)` path of `-h`/`--help`.  `err msg st` is a thrown
`std::runtime_error`: `st` is the contents of `Args` at the moment of the
throw (the caller's `Args` object keeps whatever was already assigned, which
matters for the destructor accounting).  `ok st` means all tokens were
consumed. -/
inductive POut where
  | help : POut
  | err : String → St → POut
  | ok : St → POut
deriving DecidableEq, Repr

/-- The recognized flag tokens; any other token reaching the tail of the
if-chain is treated as the inline template or rejected (main.cpp:133-139). -/
def flagTokens : List String :=
  ["-h", "--help", "-i", "--input", "-v", "--val", "-d", "--default", "-o", "--output"]

/-- The token loop of `parse_args` (main.cpp:95-140), consuming `argv[1..]`
left to right, one token of lookahead for flags that take a value.  Each
branch mirrors the source's order of asserts exactly. -/
def parseLoop (fs : FS) : List String → St → POut
  | [], st => POut.ok st
  | val :: rest, st =>
    if val = "-h" ∨ val = "--help" then
      POut.help
    else if val = "-i" ∨ val = "--input" then
      if st.input_specified then POut.err "input was already specified, -i was unexpected" st
      else
        match rest with
        | [] => POut.err "expected argument for -i" st
        | f :: rest' =>
            parseLoop fs rest' { st with input_specified := true, input := read_file fs f }
    else if val = "-v" ∨ val = "--val" then
      match rest with
      | [] => POut.err "expected argument for -v" st
      | nv :: rest' =>
          match parse_val nv with
          | none => POut.err ("Could not find value in " ++ nv) st
          | some (name, value) =>
              if (mfind st.args name).isSome then
                POut.err ("value " ++ name ++ " was already specified") st
              else
                parseLoop fs rest' { st with args := st.args ++ [(name, make_data value)] }
    else if val = "-d" ∨ val = "--default" then
      if st.default_specified then POut.err "default value already specified" st
      else
        match rest with
        | [] => POut.err "expected argument for -d" st
        | d :: rest' =>
            parseLoop fs rest'
              { st with default_specified := true, default_value := make_data d }
    else if val = "-o" ∨ val = "--output" then
      if st.output_specified then POut.err "output already specified" st
      else
        match rest with
        | [] => POut.err "expected argument for -o" st
        | f :: rest' =>
            parseLoop fs rest'
              { st with output_specified := true, out := Sink.file f (fs.writable f) }
    else if st.input_specified then
      POut.err ("Unknown extra parameter " ++ val) st
    else
      parseLoop fs rest { st with input_specified := true, input := val }

/-- Result of `parse_args` as observed by `main`: the `-h` early exit, a
thrown error (with the `Args` contents at throw time), or a validated state. -/
inductive PResult where
  | help : PResult
  | err : String → St → PResult
  | ok : St → PResult
deriving DecidableEq, Repr

/-- The tail of `parse_args` after the token loop: give the sink its
`std::cout` default when `-o` was absent (main.cpp:142-144), then the two
final validation asserts in source order (main.cpp:146-147). -/
def finishParse (st : St) : PResult :=
  let st' := if st.output_specified then st else { st with out := Sink.stdout }
  if ¬ st'.input_specified then PResult.err "No input specified (-h for help)" st'
  else if ¬ st'.default_specified then PResult.err "No default value specified" st'
  else PResult.ok st'

/-- Model of `parse_args` (main.cpp:90-148): run the token loop over
`argv[1..]`, then the output default and the final validation. -/
def parse_args (fs : FS) (argv : List String) : PResult :=
  match parseLoop fs argv initSt with
  | POut.help => PResult.help
  | POut.err m st => PResult.err m st
  | POut.ok st => finishParse st

/-- The context handed to the engine's render step: the named values plus
the single default (`ctxBuilder.use_default(...).with(k, v)...` in
main.cpp:184-187). -/
structure Ctx where
  values : List (String × UDTC)
  dflt : UDTC

/-- The external template engine (`SIPlus::Parser` / `TextConstructor`),
abstracted: `compile` is `parser.get_interpolation(input, opts)` given the
template text and the global names collected from the value map, producing a
compiled template of opaque type `T` or throwing; `render` is
`constructor.construct_with(ctx)`, producing the output string or throwing. -/
structure Engine (T : Type) where
  compile : String → List String → Except String T
  render : T → Ctx → Except String String

/-- Everything `main` makes observable: the process exit code, the lines
printed to standard error, the lines printed to standard output, the texts
written to the output sink, and the owned file handles released by the
`stream_wrapper` deleter when `main`'s scope ends. -/
structure Outcome where
  code : Nat
  stderr : List String
  stdoutLines : List String
  writes : List String
  releases : List String
deriving DecidableEq, Repr

/-- Usage banner printed by `help()` (main.cpp:43-65); its full wording is
out of the claims' scope, so the model keeps the first line as a marker. -/
def usage_text : String := "siplus: SIPlus String Interpolation CLI Utility"

/-- The owned resources a sink releases when the `stream_wrapper` destructor
runs: only the `-o` case carries a deleter (main.cpp:129-131), which deletes
the `ofstream`, closing the handle for path `p`. -/
def sinkReleases : Sink → List String
  | Sink.file p _ => [p]
  | _ => []

/-- Model of `main` (main.cpp:156-200) for one invocation.  Stage order and
error mapping follow the source: `parse_args` failure prints
`error: ...` and returns 2; a compile throw prints `parse error: ...` and
returns 1; a render throw prints `execution error: ...` and returns 1;
success writes the text to the sink and returns 0.  On every path that
returns from `main`, `Args` is destroyed and the sink's deleter runs once
(`sinkReleases`); on the `-h` path `std::exit(0)` terminates without stack
unwinding, so no destructor runs and `releases` is empty. -/
def main {T : Type} (fs : FS) (eng : Engine T) (argv : List String) : Outcome :=
  match parse_args fs argv with
  | PResult.help =>
      { code := 0, stderr := [], stdoutLines := [usage_text], writes := [], releases := [] }
  | PResult.err m st =>
      { code := 2, stderr := ["error: " ++ m], stdoutLines := [], writes := [],
        releases := sinkReleases st.out }
  | PResult.ok st =>
      match eng.compile st.input (st.args.map Prod.fst) with
      | Except.error e =>
          { code := 1, stderr := ["parse error: " ++ e], stdoutLines := [], writes := [],
            releases := sinkReleases st.out }
      | Except.ok tmpl =>
          match eng.render tmpl { values := st.args, dflt := st.default_value } with
          | Except.error e =>
              { code := 1, stderr := ["execution error: " ++ e], stdoutLines := [],
                writes := [], releases := sinkReleases st.out }
          | Except.ok text =>
              { code := 0, stderr := [], stdoutLines := [], writes := [text],
                releases := sinkReleases st.out }

/-- A fixed marker for the best-effort stack trace printed by
`cpptrace::generate_trace().print()` (external library). -/
def stack_trace : String := "<stack trace>"

/-- Model of `signal_handler` (main.cpp:150-154): print the caught signal's
number and a stack trace, then `std::exit(1)`.  The pair is (exit status,
printed lines). -/
def signal_handler (sig : Nat) : Nat × List String :=
  (1, ["Signal " ++ toString sig ++ " caught. Death imminent.", stack_trace])

/-- The message of a `parse_args` error, `none` on help or success. -/
def perrMsg : PResult → Option String
  | PResult.err m _ => some m
  | _ => none

/-- A file system with no readable files where every path is writable. -/
def fs0 : FS := { read := fun _ => none, writable := fun _ => true }

/-- A file system with no readable files where no path can be opened for
writing. -/
def fsBad : FS := { read := fun _ => none, writable := fun _ => false }

/-- A trivial engine: every template compiles and renders to `"OUT"`. -/
def engOk : Engine Unit :=
  { compile := fun _ _ => Except.ok (), render := fun _ _ => Except.ok "OUT" }

/-- An engine whose compile step always throws. -/
def engFailC : Engine Unit :=
  { compile := fun _ _ => Except.error "bad template",
    render := fun _ _ => Except.ok "OUT" }

/-- An engine that compiles everything but always throws during render. -/
def engFailR : Engine Unit :=
  { compile := fun _ _ => Except.ok (), render := fun _ _ => Except.error "bad ref" }

/-- One well-formed unit of a C1-style argument vector: a positional
template token, an `-i` file pair, a `-d` default pair, or a `-v` pair with
name and raw value. -/
inductive Item where
  | pos : String → Item
  | ifile : String → Item
  | dflt : String → Item
  | val : String → String → Item
deriving DecidableEq, Repr

/-- Whether the item supplies the input template (positional or `-i`). -/
def Item.isInput : Item → Bool
  | Item.pos _ => true
  | Item.ifile _ => true
  | _ => false

/-- Whether the item is the `-d` default. -/
def Item.isDflt : Item → Bool
  | Item.dflt _ => true
  | _ => false

/-- The concrete tokens an item contributes to the argument vector. -/
def flattenItem : Item → List String
  | Item.pos s => [s]
  | Item.ifile f => ["-i", f]
  | Item.dflt v => ["-d", v]
  | Item.val n v => ["-v", n ++ "=" ++ v]

/-- The argument vector assembled from a list of items. -/
def flattenItems : List Item → List String
  | [] => []
  | it :: its => flattenItem it ++ flattenItems its

/-- Well-formedness of one item: a positional token must not collide with a
recognized flag (otherwise it would be parsed as that flag), and a `-v`
name must not contain `'='` (so the token splits at the intended point). -/
def goodItem : Item → Bool
  | Item.pos s => decide (s ∉ flagTokens)
  | Item.val n _ => decide ('=' ∉ n.data)
  | _ => true

/-- The name-to-value bindings the `-v` items of the list contribute. -/
def valPairs : List Item → List (String × UDTC)
  | [] => []
  | Item.val n v :: its => (n, make_data v) :: valPairs its
  | _ :: its => valPairs its

/-- The names supplied by the `-v` items, in order. -/
def valNames (its : List Item) : List String := (valPairs its).map Prod.fst

/-- The parser-state update one item performs when its tokens are consumed
by the loop. -/
def stepItem (fs : FS) (st : St) : Item → St
  | Item.pos s => { st with input_specified := true, input := s }
  | Item.ifile f => { st with input_specified := true, input := read_file fs f }
  | Item.dflt v => { st with default_specified := true, default_value := make_data v }
  | Item.val n v => { st with args := st.args ++ [(n, make_data v)] }

/-- The parser state after consuming a whole item list. -/
def foldItems (fs : FS) (st : St) : List Item → St
  | [] => st
  | it :: its => foldItems fs (stepItem fs st it) its

section StepLemmas

variable (fs : FS)

theorem step_help (val : String) (rest : List String) (st : St)
    (hv : val = "-h" ∨ val = "--help") :
    parseLoop fs (val :: rest) st = POut.help := by
  rcases hv with rfl | rfl <;>
    (conv_lhs => unfold parseLoop) <;>
    simp only [String.reduceEq, true_or, or_true, or_false, false_or, reduceIte]

theorem step_input_one (val : String) (st : St)
    (hv : val = "-i" ∨ val = "--input") :
    parseLoop fs [val] st =
      if st.input_specified then
        POut.err "input was already specified, -i was unexpected" st
      else POut.err "expected argument for -i" st := by
  rcases hv with rfl | rfl <;>
    (conv_lhs => unfold parseLoop) <;>
    simp only [String.reduceEq, true_or, or_true, or_false, false_or, or_self, reduceIte]

theorem step_input (val f : String) (rest : List String) (st : St)
    (hv : val = "-i" ∨ val = "--input") :
    parseLoop fs (val :: f :: rest) st =
      if st.input_specified then
        POut.err "input was already specified, -i was unexpected" st
      else
        parseLoop fs rest { st with input_specified := true, input := read_file fs f } := by
  rcases hv with rfl | rfl <;>
    (conv_lhs => unfold parseLoop) <;>
    simp only [String.reduceEq, true_or, or_true, or_false, false_or, or_self, reduceIte]

theorem step_val_one (val : String) (st : St)
    (hv : val = "-v" ∨ val = "--val") :
    parseLoop fs [val] st = POut.err "expected argument for -v" st := by
  rcases hv with rfl | rfl <;>
    (conv_lhs => unfold parseLoop) <;>
    simp only [String.reduceEq, true_or, or_true, or_false, false_or, or_self, reduceIte]

theorem step_val (val nv : String) (rest : List String) (st : St)
    (hv : val = "-v" ∨ val = "--val") :
    parseLoop fs (val :: nv :: rest) st =
      match parse_val nv with
      | none => POut.err ("Could not find value in " ++ nv) st
      | some (name, value) =>
          if (mfind st.args name).isSome then
            POut.err ("value " ++ name ++ " was already specified") st
          else
            parseLoop fs rest { st with args := st.args ++ [(name, make_data value)] } := by
  rcases hv with rfl | rfl <;>
    (conv_lhs => unfold parseLoop) <;>
    simp only [String.reduceEq, true_or, or_true, or_false, false_or, or_self, reduceIte]

theorem step_dflt_one (val : String) (st : St)
    (hv : val = "-d" ∨ val = "--default") :
    parseLoop fs [val] st =
      if st.default_specified then POut.err "default value already specified" st
      else POut.err "expected argument for -d" st := by
  rcases hv with rfl | rfl <;>
    (conv_lhs => unfold parseLoop) <;>
    simp only [String.reduceEq, true_or, or_true, or_false, false_or, or_self, reduceIte]

theorem step_dflt (val d : String) (rest : List String) (st : St)
    (hv : val = "-d" ∨ val = "--default") :
    parseLoop fs (val :: d :: rest) st =
      if st.default_specified then POut.err "default value already specified" st
      else
        parseLoop fs rest
          { st with default_specified := true, default_value := make_data d } := by
  rcases hv with rfl | rfl <;>
    (conv_lhs => unfold parseLoop) <;>
    simp only [String.reduceEq, true_or, or_true, or_false, false_or, or_self, reduceIte]

theorem step_out_one (val : String) (st : St)
    (hv : val = "-o" ∨ val = "--output") :
    parseLoop fs [val] st =
      if st.output_specified then POut.err "output already specified" st
      else POut.err "expected argument for -o" st := by
  rcases hv with rfl | rfl <;>
    (conv_lhs => unfold parseLoop) <;>
    simp only [String.reduceEq, true_or, or_true, or_false, false_or, or_self, reduceIte]

theorem step_out (val f : String) (rest : List String) (st : St)
    (hv : val = "-o" ∨ val = "--output") :
    parseLoop fs (val :: f :: rest) st =
      if st.output_specified then POut.err "output already specified" st
      else
        parseLoop fs rest
          { st with output_specified := true, out := Sink.file f (fs.writable f) } := by
  rcases hv with rfl | rfl <;>
    (conv_lhs => unfold parseLoop) <;>
    simp only [String.reduceEq, true_or, or_true, or_false, false_or, or_self, reduceIte]

theorem step_nonflag (t : String) (rest : List String) (st : St)
    (h : t ∉ flagTokens) :
    parseLoop fs (t :: rest) st =
      if st.input_specified then
        POut.err ("Unknown extra parameter " ++ t) st
      else
        parseLoop fs rest { st with input_specified := true, input := t } := by
  simp [flagTokens] at h
  obtain ⟨h1, h2, h3, h4, h5, h6, h7, h8, h9, h10⟩ := h
  conv_lhs => unfold parseLoop
  simp only [h1, h2, h3, h4, h5, h6, h7, h8, h9, h10, or_self, if_false]

end StepLemmas

section MapLemmas

theorem splitEq_of_not_mem (n v : List Char) (h : '=' ∉ n) :
    splitEq (n ++ '=' :: v) = some (n, v) := by
  induction n with
  | nil => simp [splitEq]
  | cons c cs ih =>
      simp only [List.mem_cons, not_or] at h
      obtain ⟨hc, hcs⟩ := h
      have hc' : ¬c = '=' := fun hh => hc hh.symm
      simp [splitEq, hc', ih hcs]

theorem parse_val_append (name value : String) (h : '=' ∉ name.data) :
    parse_val (name ++ "=" ++ value) = some (name, value) := by
  have hdata : (name ++ "=" ++ value).data = name.data ++ '=' :: value.data := by
    have h1 : (name ++ "=" ++ value).data = (name.data ++ ['=']) ++ value.data := rfl
    rw [h1, List.append_assoc]
    rfl
  unfold parse_val
  rw [hdata, splitEq_of_not_mem name.data value.data h]

theorem mfind_eq_none_iff (m : List (String × UDTC)) (k : String) :
    mfind m k = none ↔ k ∉ m.map Prod.fst := by
  induction m with
  | nil => simp [mfind]
  | cons p rest ih =>
      obtain ⟨k', v⟩ := p
      by_cases hk : k' = k
      · subst hk
        simp [mfind]
      · simp [mfind, hk, ih, Ne.symm hk]

theorem mfind_append_left_none (m1 m2 : List (String × UDTC)) (k : String)
    (h : mfind m1 k = none) : mfind (m1 ++ m2) k = mfind m2 k := by
  induction m1 with
  | nil => simp
  | cons p rest ih =>
      obtain ⟨k', v⟩ := p
      by_cases hk : k' = k
      · subst hk
        simp [mfind] at h
      · simp only [mfind, hk, if_false, List.cons_append] at h ⊢
        exact ih h

theorem keys_append_single (m : List (String × UDTC)) (n : String) (v : UDTC) :
    (m ++ [(n, v)]).map Prod.fst = m.map Prod.fst ++ [n] := by
  simp

/-- Invariant of the token loop: the value map's key list stays duplicate
free, because every insertion is guarded by the `find == end` assert
(main.cpp:112). -/
theorem parseLoop_ok_nodup (fs : FS) (xs : List String) (st : St) :
    ∀ st', (st.args.map Prod.fst).Nodup → parseLoop fs xs st = POut.ok st' →
      (st'.args.map Prod.fst).Nodup := by
  induction xs, st using parseLoop.induct fs with
  | case1 st =>
      intro st' hnd h
      simp only [parseLoop] at h
      cases h
      exact hnd
  | case2 val rest st hv =>
      intro st' hnd h
      rw [step_help fs val rest st hv] at h
      cases h
  | case3 val rest st _ hv hin =>
      intro st' hnd h
      cases rest with
      | nil => rw [step_input_one fs val st hv, if_pos hin] at h; cases h
      | cons f rest' => rw [step_input fs val f rest' st hv, if_pos hin] at h; cases h
  | case4 val st _ hv hin =>
      intro st' hnd h
      rw [step_input_one fs val st hv, if_neg hin] at h
      cases h
  | case5 val st _ hv hin f rest' ih =>
      intro st' hnd h
      rw [step_input fs val f rest' st hv, if_neg hin] at h
      exact ih st' hnd h
  | case6 val st _ _ hv =>
      intro st' hnd h
      rw [step_val_one fs val st hv] at h
      cases h
  | case7 val st _ _ hv f rest' hpv =>
      intro st' hnd h
      rw [step_val fs val f rest' st hv] at h
      simp only [hpv] at h
      cases h
  | case8 val st _ _ hv f rest' name value hpv hdup =>
      intro st' hnd h
      rw [step_val fs val f rest' st hv] at h
      simp only [hpv, hdup, if_true] at h
      cases h
  | case9 val st _ _ hv f rest' name value hpv hdup ih =>
      intro st' hnd h
      rw [step_val fs val f rest' st hv] at h
      simp only [hpv, hdup, if_false] at h
      refine ih st' ?_ h
      simp only [keys_append_single]
      rw [List.nodup_append_comm]
      simp only [List.singleton_append, List.nodup_cons]
      refine ⟨?_, hnd⟩
      rw [← mfind_eq_none_iff]
      simpa using hdup
  | case10 val rest st _ _ _ hv hdf =>
      intro st' hnd h
      cases rest with
      | nil => rw [step_dflt_one fs val st hv, if_pos hdf] at h; cases h
      | cons d rest' => rw [step_dflt fs val d rest' st hv, if_pos hdf] at h; cases h
  | case11 val st _ _ _ hv hdf =>
      intro st' hnd h
      rw [step_dflt_one fs val st hv, if_neg hdf] at h
      cases h
  | case12 val st _ _ _ hv hdf d rest' ih =>
      intro st' hnd h
      rw [step_dflt fs val d rest' st hv, if_neg hdf] at h
      exact ih st' hnd h
  | case13 val rest st _ _ _ _ hv hout =>
      intro st' hnd h
      cases rest with
      | nil => rw [step_out_one fs val st hv, if_pos hout] at h; cases h
      | cons f rest' => rw [step_out fs val f rest' st hv, if_pos hout] at h; cases h
  | case14 val st _ _ _ _ hv hout =>
      intro st' hnd h
      rw [step_out_one fs val st hv, if_neg hout] at h
      cases h
  | case15 val st _ _ _ _ hv hout f rest' ih =>
      intro st' hnd h
      rw [step_out fs val f rest' st hv, if_neg hout] at h
      exact ih st' hnd h
  | case16 val rest st h1 h2 h3 h4 h5 hin =>
      intro st' hnd h
      rw [step_nonflag fs val rest st (by simp [flagTokens]; tauto), if_pos hin] at h
      cases h
  | case17 val rest st h1 h2 h3 h4 h5 hin ih =>
      intro st' hnd h
      rw [step_nonflag fs val rest st (by simp [flagTokens]; tauto), if_neg hin] at h
      exact ih st' hnd h

theorem finishParse_spec (st : St) :
    finishParse st =
      if st.input_specified = false then
        PResult.err "No input specified (-h for help)"
          (if st.output_specified then st else { st with out := Sink.stdout })
      else if st.default_specified = false then
        PResult.err "No default value specified"
          (if st.output_specified then st else { st with out := Sink.stdout })
      else PResult.ok (if st.output_specified then st else { st with out := Sink.stdout }) := by
  obtain ⟨i, o, dv, a, is, os, ds⟩ := st
  cases is <;> cases os <;> cases ds <;> simp [finishParse]

theorem finishParse_ok_args (st st' : St) (h : finishParse st = PResult.ok st') :
    st'.args = st.args := by
  obtain ⟨i, o, dv, a, is, os, ds⟩ := st
  cases is <;> cases os <;> cases ds <;> simp_all [finishParse] <;> subst h <;> rfl

end MapLemmas

/-- C3 counterexample: at the concrete signal 11 (SIGSEGV) the handler's
exit status is 1, so it is not distinguished from all of the codes 0, 1
and 2 — it collides with the template-error code 1. -/
theorem signal_handler_exit_collides :
    ¬ ((signal_handler 11).1 ≠ 0 ∧ (signal_handler 11).1 ≠ 1 ∧ (signal_handler 11).1 ≠ 2) := by
  decide

/-- C3 (amended): when a fatal signal is caught, the handler prints the
signal number and a stack trace and terminates with `std::exit(1)` — an
exit status distinguished from 0 (success) and 2 (usage error) but equal to
the template-error code 1. -/
theorem signal_handler_reports_and_exits_one (sig : Nat) :
    signal_handler sig =
      (1, ["Signal " ++ toString sig ++ " caught. Death imminent.", stack_trace])
    ∧ (signal_handler sig).1 ≠ 0 ∧ (signal_handler sig).1 ≠ 2 :=
  ⟨rfl, by simp [signal_handler], by simp [signal_handler]⟩

/-- C5 counterexample: `-h` appears in the argument vector `-d -h`, yet the
program does not print usage and exit 0 — the token is consumed as the
argument of `-d` and the invocation fails with exit code 2. -/
theorem help_not_short_circuiting_anywhere :
    "-h" ∈ ["-d", "-h"] ∧ (main fs0 engOk ["-d", "-h"]).code = 2 ∧
      (main fs0 engOk ["-d", "-h"]).stdoutLines = [] := by
  decide

/-- C5 (amended): when `-h`/`--help` is reached by the scan as the current
token (not consumed as a preceding flag's argument), the loop short-circuits
to help from any state, and an invocation starting with it prints the usage
text and exits 0, bypassing all validation even with required flags absent. -/
theorem help_flag_position {T : Type} (fs : FS) (eng : Engine T) (val : String)
    (rest : List String) (st : St) (hv : val = "-h" ∨ val = "--help") :
    parseLoop fs (val :: rest) st = POut.help
    ∧ main fs eng (val :: rest) =
        { code := 0, stderr := [], stdoutLines := [usage_text], writes := [], releases := [] } := by
  refine ⟨step_help fs val rest st hv, ?_⟩
  unfold main parse_args
  rw [step_help fs val rest initSt hv]

theorem help_flag_position_witness :
    parseLoop fs0 ["-h"] initSt = POut.help
    ∧ main fs0 engOk ["-h"] =
        { code := 0, stderr := [], stdoutLines := [usage_text], writes := [], releases := [] } :=
  help_flag_position fs0 engOk "-h" [] initSt (Or.inl rfl)

/-- C6: a second `-v` with an already-registered name fails with the
"value ... was already specified" error, leaving the value map with the
first binding (no overwrite) and constructing no Argument Model; moreover
every successfully validated state has duplicate-free value names. -/
theorem duplicate_val_rejected (fs : FS) (name v1 v2 : String) (rest : List String)
    (h : '=' ∉ name.data) :
    parse_args fs ("-v" :: (name ++ "=" ++ v1) :: "-v" :: (name ++ "=" ++ v2) :: rest)
      = PResult.err ("value " ++ name ++ " was already specified")
          { initSt with args := [(name, make_data v1)] }
  ∧ ∀ (argv : List String) (st : St),
      parse_args fs argv = PResult.ok st → (st.args.map Prod.fst).Nodup := by
  constructor
  · have h1 := parse_val_append name v1 h
    have h2 := parse_val_append name v2 h
    unfold parse_args
    rw [step_val fs "-v" (name ++ "=" ++ v1) _ initSt (Or.inl rfl)]
    simp only [h1, initSt, mfind, Option.isSome_none, Bool.false_eq_true, if_false]
    rw [step_val fs "-v" (name ++ "=" ++ v2) rest _ (Or.inl rfl)]
    simp only [h2, List.nil_append, mfind, if_pos rfl, Option.isSome_some, if_true]
  · intro argv st hok
    unfold parse_args at hok
    cases hpl : parseLoop fs argv initSt with
    | help => rw [hpl] at hok; cases hok
    | err m st0 => rw [hpl] at hok; cases hok
    | ok st0 =>
        have hnd : (st0.args.map Prod.fst).Nodup :=
          parseLoop_ok_nodup fs argv initSt st0 (by simp [initSt]) hpl
        rw [hpl] at hok
        rw [finishParse_ok_args st0 st hok]
        exact hnd

theorem duplicate_val_rejected_witness :
    parse_args fs0 ["-v", "a=1", "-v", "a=2"]
      = PResult.err "value a was already specified"
          { initSt with args := [("a", make_data "1")] } :=
  (duplicate_val_rejected fs0 "a" "1" "2" [] (by decide)).1

/-- C7 counterexample: on the empty argument vector neither the input nor
`-d` was given, yet parsing fails with the "No input specified" message, not
the "No default value specified" message the claim requires whenever `-d`
is absent. -/
theorem default_check_shadowed_by_input_check :
    perrMsg (parse_args fs0 []) = some "No input specified (-h for help)"
  ∧ perrMsg (parse_args fs0 []) ≠ some "No default value specified" := by
  decide

/-- C7 (amended): after the token loop completes without `-h`, parsing
fails with "No input specified (-h for help)" whenever no input was set
(this check runs first), fails with "No default value specified" whenever
input was set but `-d` was not, and succeeds exactly when both were set. -/
theorem final_validation_order (fs : FS) (argv : List String) (st : St)
    (h : parseLoop fs argv initSt = POut.ok st) :
    (st.input_specified = false →
      parse_args fs argv = PResult.err "No input specified (-h for help)"
        (if st.output_specified then st else { st with out := Sink.stdout }))
  ∧ (st.input_specified = true → st.default_specified = false →
      parse_args fs argv = PResult.err "No default value specified"
        (if st.output_specified then st else { st with out := Sink.stdout }))
  ∧ (parse_args fs argv
        = PResult.ok (if st.output_specified then st else { st with out := Sink.stdout })
      ↔ st.input_specified = true ∧ st.default_specified = true) := by
  have hp : parse_args fs argv = finishParse st := by
    unfold parse_args
    rw [h]
  rw [hp, finishParse_spec]
  refine ⟨?_, ?_, ?_⟩
  · intro hin
    simp [hin]
  · intro hin hdf
    simp [hin, hdf]
  · constructor
    · intro hok
      by_cases hin : st.input_specified = true
      · by_cases hdf : st.default_specified = true
        · exact ⟨hin, hdf⟩
        · have hdf' : st.default_specified = false := by
            revert hdf; cases st.default_specified <;> simp
          simp [hin, hdf'] at hok
      · have hin' : st.input_specified = false := by
          revert hin; cases st.input_specified <;> simp
        simp [hin'] at hok
    · rintro ⟨hin, hdf⟩
      simp [hin, hdf]

theorem final_validation_order_witness :
    parse_args fs0 [] = PResult.err "No input specified (-h for help)"
      { initSt with out := Sink.stdout } := by
  have := (final_validation_order fs0 [] initSt rfl).1 rfl
  simpa using this

/-- C9: while the input is still unset, any token that is not a recognized
flag — including flag look-alikes — is silently consumed as the inline
template; the "Unknown extra parameter" error arises from such a token only
when the input was already set. -/
theorem unknown_param_only_after_input (fs : FS) (t : String) (rest : List String)
    (st : St) (h : t ∉ flagTokens) :
    (st.input_specified = false →
      parseLoop fs (t :: rest) st
        = parseLoop fs rest { st with input_specified := true, input := t })
  ∧ (st.input_specified = true →
      parseLoop fs (t :: rest) st = POut.err ("Unknown extra parameter " ++ t) st) := by
  constructor <;> intro hin <;> rw [step_nonflag fs t rest st h] <;> simp [hin]

theorem unknown_param_only_after_input_witness :
    parseLoop fs0 ["-x"] initSt = POut.ok { initSt with input_specified := true, input := "-x" }
  ∧ parseLoop fs0 ["-x"] { initSt with input_specified := true }
      = POut.err "Unknown extra parameter -x" { initSt with input_specified := true } := by
  constructor
  · exact ((unknown_param_only_after_input fs0 "-x" [] initSt (by decide)).1 rfl).trans rfl
  · exact (unknown_param_only_after_input fs0 "-x" []
      { initSt with input_specified := true } (by decide)).2 rfl

/-- C10: an unreadable `-i` file does not fail parsing: `read_file` yields
the empty string and the invocation proceeds with an empty template. -/
theorem missing_input_file_reads_empty (fs : FS) (f d : String) (h : fs.read f = none) :
    read_file fs f = ""
  ∧ parse_args fs ["-i", f, "-d", d] =
      PResult.ok { input := "", out := Sink.stdout, default_value := make_data d,
                   args := [], input_specified := true, output_specified := false,
                   default_specified := true } := by
  have hr : read_file fs f = "" := by simp [read_file, h]
  refine ⟨hr, ?_⟩
  unfold parse_args
  rw [step_input fs "-i" f _ initSt (Or.inl rfl)]
  simp only [initSt, Bool.false_eq_true, if_false, hr]
  rw [step_dflt fs "-d" d [] _ (Or.inl rfl)]
  simp [parseLoop, finishParse]

theorem missing_input_file_reads_empty_witness :
    fs0.read "missing" = none
  ∧ parse_args fs0 ["-i", "missing", "-d", "v"] =
      PResult.ok { input := "", out := Sink.stdout, default_value := make_data "v",
                   args := [], input_specified := true, output_specified := false,
                   default_specified := true } :=
  ⟨rfl, (missing_input_file_reads_empty fs0 "missing" "v" rfl).2⟩

/-- C2: the exit code is 0 on full success and on help; 2 when `parse_args`
fails (message on stderr under "error:"); 1 when the engine's compile step
throws ("parse error:") and 1 when its render step throws
("execution error:"), the three stages thus carrying distinct prefixes. -/
theorem main_exit_codes {T : Type} (fs : FS) (eng : Engine T) (argv : List String) :
    (parse_args fs argv = PResult.help →
      main fs eng argv =
        { code := 0, stderr := [], stdoutLines := [usage_text], writes := [], releases := [] })
  ∧ (∀ m st, parse_args fs argv = PResult.err m st →
      (main fs eng argv).code = 2 ∧ (main fs eng argv).stderr = ["error: " ++ m])
  ∧ (∀ st e, parse_args fs argv = PResult.ok st →
      eng.compile st.input (st.args.map Prod.fst) = Except.error e →
      (main fs eng argv).code = 1 ∧ (main fs eng argv).stderr = ["parse error: " ++ e])
  ∧ (∀ st t e, parse_args fs argv = PResult.ok st →
      eng.compile st.input (st.args.map Prod.fst) = Except.ok t →
      eng.render t { values := st.args, dflt := st.default_value } = Except.error e →
      (main fs eng argv).code = 1 ∧ (main fs eng argv).stderr = ["execution error: " ++ e])
  ∧ (∀ st t text, parse_args fs argv = PResult.ok st →
      eng.compile st.input (st.args.map Prod.fst) = Except.ok t →
      eng.render t { values := st.args, dflt := st.default_value } = Except.ok text →
      (main fs eng argv).code = 0 ∧ (main fs eng argv).stderr = []
        ∧ (main fs eng argv).writes = [text]) := by
  refine ⟨?_, ?_, ?_, ?_, ?_⟩
  · intro h
    unfold main
    rw [h]
  · intro m st h
    unfold main
    rw [h]
    exact ⟨rfl, rfl⟩
  · intro st e h hc
    unfold main
    rw [h]
    simp [hc]
  · intro st t e h hc hr
    unfold main
    rw [h]
    simp [hc, hr]
  · intro st t text h hc hr
    unfold main
    rw [h]
    simp [hc, hr]

theorem main_exit_codes_witness :
    main fs0 engOk ["-h"] =
      { code := 0, stderr := [], stdoutLines := [usage_text], writes := [], releases := [] }
  ∧ (main fs0 engOk []).code = 2
  ∧ (main fs0 engFailC ["T", "-d", "x"]).code = 1
  ∧ (main fs0 engFailR ["T", "-d", "x"]).stderr = ["execution error: bad ref"]
  ∧ (main fs0 engOk ["T", "-d", "x"]).writes = ["OUT"] := by
  refine ⟨?_, ?_, ?_, ?_, ?_⟩
  · exact (main_exit_codes fs0 engOk ["-h"]).1 (by decide)
  · exact ((main_exit_codes fs0 engOk []).2.1 "No input specified (-h for help)"
      { initSt with out := Sink.stdout } (by decide)).1
  · exact ((main_exit_codes fs0 engFailC ["T", "-d", "x"]).2.2.1
      { input := "T", out := Sink.stdout, default_value := make_data "x", args := [],
        input_specified := true, output_specified := false, default_specified := true }
      "bad template" (by decide) rfl).1
  · exact ((main_exit_codes fs0 engFailR ["T", "-d", "x"]).2.2.2.1
      { input := "T", out := Sink.stdout, default_value := make_data "x", args := [],
        input_specified := true, output_specified := false, default_specified := true }
      () "bad ref" (by decide) rfl rfl).2
  · exact ((main_exit_codes fs0 engOk ["T", "-d", "x"]).2.2.2.2
      { input := "T", out := Sink.stdout, default_value := make_data "x", args := [],
        input_specified := true, output_specified := false, default_specified := true }
      () "OUT" (by decide) rfl rfl).2.2

/-- C4 counterexample: with `-o out` on a file system where "out" cannot be
opened for writing, the invocation does not fail: it runs to completion
with exit code 0, empty stderr, and the write performed on the failed
sink. -/
theorem output_open_failure_counterexample :
    fsBad.writable "out" = false
  ∧ main fsBad engOk ["T", "-d", "x", "-o", "out"] =
      { code := 0, stderr := [], stdoutLines := [], writes := ["OUT"], releases := ["out"] } := by
  decide

/-- C4 (amended): a failure to open the `-o` file is never detected — the
`ofstream` is constructed in a failed state, `parse_args` succeeds holding
that failed sink, compilation and rendering proceed, and on success the
text is written to the failed sink with exit code 0 and no I/O error. -/
theorem output_open_failure_undetected (fs : FS) (t d p : String)
    (ht : t ∉ flagTokens) (hw : fs.writable p = false) :
    parse_args fs [t, "-d", d, "-o", p]
      = PResult.ok { input := t, out := Sink.file p false, default_value := make_data d,
                     args := [], input_specified := true, output_specified := true,
                     default_specified := true }
  ∧ main fs engOk [t, "-d", d, "-o", p]
      = { code := 0, stderr := [], stdoutLines := [], writes := ["OUT"], releases := [p] } := by
  have hp : parse_args fs [t, "-d", d, "-o", p]
      = PResult.ok { input := t, out := Sink.file p false, default_value := make_data d,
                     args := [], input_specified := true, output_specified := true,
                     default_specified := true } := by
    unfold parse_args
    rw [step_nonflag fs t _ initSt ht]
    simp only [initSt, Bool.false_eq_true, if_false]
    rw [step_dflt fs "-d" d _ _ (Or.inl rfl)]
    simp only [Bool.false_eq_true, if_false]
    rw [step_out fs "-o" p _ _ (Or.inl rfl)]
    simp only [Bool.false_eq_true, if_false, hw]
    simp [parseLoop, finishParse]
  refine ⟨hp, ?_⟩
  unfold main
  rw [hp]
  rfl

theorem output_open_failure_undetected_witness :
    parse_args fsBad ["T", "-d", "x", "-o", "out"]
      = PResult.ok { input := "T", out := Sink.file "out" false, default_value := make_data "x",
                     args := [], input_specified := true, output_specified := true,
                     default_specified := true }
  ∧ main fsBad engOk ["T", "-d", "x", "-o", "out"]
      = { code := 0, stderr := [], stdoutLines := [], writes := ["OUT"], releases := ["out"] } :=
  output_open_failure_undetected fsBad "T" "x" "out" (by decide) rfl

/-- C8: whenever the invocation ends (other than via the `-h` `std::exit`)
with the `Args` sink owning a file handle — on success, on a `parse_args`
throw after `-o` was processed, and on compile or render failure — the
`stream_wrapper` deleter releases that handle exactly once. -/
theorem owned_sink_released_once {T : Type} (fs : FS) (eng : Engine T) (argv : List String)
    (p : String) (b : Bool)
    (h : (∃ m st, parse_args fs argv = PResult.err m st ∧ st.out = Sink.file p b)
       ∨ (∃ st, parse_args fs argv = PResult.ok st ∧ st.out = Sink.file p b)) :
    (main fs eng argv).releases = [p] := by
  unfold main
  rcases h with ⟨m, st, hp, ho⟩ | ⟨st, hp, ho⟩
  · rw [hp]
    simp [sinkReleases, ho]
  · rw [hp]
    cases hc : eng.compile st.input (st.args.map Prod.fst) with
    | error e => simp [hc, sinkReleases, ho]
    | ok tmpl =>
        cases hr : eng.render tmpl { values := st.args, dflt := st.default_value } with
        | error e => simp [hc, hr, sinkReleases, ho]
        | ok text => simp [hc, hr, sinkReleases, ho]

theorem owned_sink_released_once_witness :
    (main fs0 engOk ["T", "-d", "x", "-o", "f"]).releases = ["f"]
  ∧ (main fs0 engOk ["-o", "f"]).releases = ["f"] := by
  constructor
  · exact owned_sink_released_once fs0 engOk ["T", "-d", "x", "-o", "f"] "f" true
      (Or.inr ⟨{ input := "T", out := Sink.file "f" true, default_value := make_data "x",
                 args := [], input_specified := true, output_specified := true,
                 default_specified := true }, by decide, rfl⟩)
  · exact owned_sink_released_once fs0 engOk ["-o", "f"] "f" true
      (Or.inl ⟨"No input specified (-h for help)",
        { input := "", out := Sink.file "f" true, default_value := UDTC.empty,
          args := [], input_specified := false, output_specified := true,
          default_specified := false }, by decide, rfl⟩)

theorem foldItems_args (fs : FS) (its : List Item) : ∀ st : St,
    (foldItems fs st its).args = st.args ++ valPairs its := by
  induction its with
  | nil => intro st; simp [foldItems, valPairs]
  | cons it its ih =>
      intro st
      cases it <;> simp [foldItems, stepItem, valPairs, ih]

theorem foldItems_input (fs : FS) (its : List Item) : ∀ st : St,
    (foldItems fs st its).input_specified
      = (st.input_specified || its.any (fun it => Item.isInput it)) := by
  induction its with
  | nil => intro st; simp [foldItems]
  | cons it its ih =>
      intro st
      cases it <;> simp [foldItems, stepItem, Item.isInput, ih]

theorem foldItems_default (fs : FS) (its : List Item) : ∀ st : St,
    (foldItems fs st its).default_specified
      = (st.default_specified || its.any (fun it => Item.isDflt it)) := by
  induction its with
  | nil => intro st; simp [foldItems]
  | cons it its ih =>
      intro st
      cases it <;> simp [foldItems, stepItem, Item.isDflt, ih]

theorem foldItems_output (fs : FS) (its : List Item) : ∀ st : St,
    (foldItems fs st its).output_specified = st.output_specified := by
  induction its with
  | nil => intro st; rfl
  | cons it its ih =>
      intro st
      cases it <;> simp [foldItems, stepItem, ih]

theorem mem_valNames_of_mem (its : List Item) (n v : String)
    (h : Item.val n v ∈ its) : n ∈ valNames its := by
  induction its with
  | nil => cases h
  | cons it its ih =>
      rcases List.mem_cons.mp h with heq | htail
      · subst heq
        simp [valNames, valPairs]
      · cases it <;> simp [valNames, valPairs] at ih ⊢ <;> try exact ih htail
        exact Or.inr (ih htail)

theorem mfind_valPairs_of_mem (its : List Item) (n v : String)
    (hnd : (valNames its).Nodup) (hmem : Item.val n v ∈ its) :
    mfind (valPairs its) n = some (make_data v) := by
  induction its with
  | nil => cases hmem
  | cons it its ih =>
      cases it with
      | pos s =>
          rcases List.mem_cons.mp hmem with heq | htail
          · cases heq
          · exact ih (by simpa [valNames, valPairs] using hnd) htail
      | ifile f =>
          rcases List.mem_cons.mp hmem with heq | htail
          · cases heq
          · exact ih (by simpa [valNames, valPairs] using hnd) htail
      | dflt d =>
          rcases List.mem_cons.mp hmem with heq | htail
          · cases heq
          · exact ih (by simpa [valNames, valPairs] using hnd) htail
      | val n' v' =>
          have hnd' := hnd
          simp only [valNames, valPairs, List.map_cons, List.nodup_cons] at hnd'
          obtain ⟨hnotin, htl⟩ := hnd'
          rcases List.mem_cons.mp hmem with heq | htail
          · injection heq with h1 h2
            subst h1
            subst h2
            simp [valPairs, mfind]
          · have hne : n' ≠ n := by
              intro he
              subst he
              exact hnotin (mem_valNames_of_mem its n' v htail)
            simp only [valPairs, mfind, hne, if_false]
            exact ih htl htail

theorem mfind_valPairs_isSome_iff (its : List Item) (n : String) :
    (mfind (valPairs its) n).isSome = true ↔ n ∈ valNames its := by
  induction its with
  | nil => simp [valPairs, valNames, mfind]
  | cons it its ih =>
      cases it with
      | pos s => simpa [valPairs, valNames] using ih
      | ifile f => simpa [valPairs, valNames] using ih
      | dflt d => simpa [valPairs, valNames] using ih
      | val n' v' =>
          by_cases he : n' = n
          · subst he
            simp [valPairs, valNames, mfind]
          · simp only [valPairs, valNames, mfind, he, if_false, List.map_cons, List.mem_cons]
            rw [ih]
            constructor
            · intro h
              exact Or.inr h
            · rintro (h | h)
              · exact absurd h.symm he
              · exact h

theorem parseLoop_flattenItems (fs : FS) (its : List Item) : ∀ (st : St),
    (st.input_specified = true → its.countP (fun it => Item.isInput it) = 0) →
    its.countP (fun it => Item.isInput it) ≤ 1 →
    (st.default_specified = true → its.countP (fun it => Item.isDflt it) = 0) →
    its.countP (fun it => Item.isDflt it) ≤ 1 →
    (∀ it ∈ its, goodItem it = true) →
    (valNames its).Nodup →
    (∀ n ∈ valNames its, mfind st.args n = none) →
    parseLoop fs (flattenItems its) st = POut.ok (foldItems fs st its) := by
  induction its with
  | nil =>
      intro st _ _ _ _ _ _ _
      simp [flattenItems, foldItems, parseLoop]
  | cons it its ih =>
      intro st h1 h2 h3 h4 h5 h6 h7
      cases it with
      | pos s =>
          have hcc : (Item.pos s :: its).countP (fun it => Item.isInput it)
              = its.countP (fun it => Item.isInput it) + 1 :=
            List.countP_cons_of_pos _ _ (by simp [Item.isInput])
          have hdc : (Item.pos s :: its).countP (fun it => Item.isDflt it)
              = its.countP (fun it => Item.isDflt it) :=
            List.countP_cons_of_neg _ _ (by simp [Item.isDflt])
          have hcnt : its.countP (fun it => Item.isInput it) = 0 := by
            rw [hcc] at h2
            omega
          have hin : st.input_specified = false := by
            cases hst : st.input_specified
            · rfl
            · have := h1 hst
              rw [hcc] at this
              omega
          have hs : s ∉ flagTokens := by
            have := h5 (Item.pos s) (List.mem_cons_self _ _)
            simpa [goodItem] using this
          show parseLoop fs (s :: flattenItems its) st = _
          rw [step_nonflag fs s _ st hs, if_neg (by simp [hin])]
          show _ = POut.ok (foldItems fs (stepItem fs st (Item.pos s)) its)
          apply ih
          · intro _
            exact hcnt
          · omega
          · intro hds
            have := h3 hds
            rwa [hdc] at this
          · rwa [hdc] at h4
          · intro x hx
            exact h5 x (List.mem_cons_of_mem _ hx)
          · simpa [valNames, valPairs] using h6
          · intro n hn
            exact h7 n (by simpa [valNames, valPairs] using hn)
      | ifile f =>
          have hcc : (Item.ifile f :: its).countP (fun it => Item.isInput it)
              = its.countP (fun it => Item.isInput it) + 1 :=
            List.countP_cons_of_pos _ _ (by simp [Item.isInput])
          have hdc : (Item.ifile f :: its).countP (fun it => Item.isDflt it)
              = its.countP (fun it => Item.isDflt it) :=
            List.countP_cons_of_neg _ _ (by simp [Item.isDflt])
          have hcnt : its.countP (fun it => Item.isInput it) = 0 := by
            rw [hcc] at h2
            omega
          have hin : st.input_specified = false := by
            cases hst : st.input_specified
            · rfl
            · have := h1 hst
              rw [hcc] at this
              omega
          show parseLoop fs ("-i" :: f :: flattenItems its) st = _
          rw [step_input fs "-i" f _ st (Or.inl rfl), if_neg (by simp [hin])]
          show _ = POut.ok (foldItems fs (stepItem fs st (Item.ifile f)) its)
          apply ih
          · intro _
            exact hcnt
          · omega
          · intro hds
            have := h3 hds
            rwa [hdc] at this
          · rwa [hdc] at h4
          · intro x hx
            exact h5 x (List.mem_cons_of_mem _ hx)
          · simpa [valNames, valPairs] using h6
          · intro n hn
            exact h7 n (by simpa [valNames, valPairs] using hn)
      | dflt d =>
          have hcc : (Item.dflt d :: its).countP (fun it => Item.isDflt it)
              = its.countP (fun it => Item.isDflt it) + 1 :=
            List.countP_cons_of_pos _ _ (by simp [Item.isDflt])
          have hic : (Item.dflt d :: its).countP (fun it => Item.isInput it)
              = its.countP (fun it => Item.isInput it) :=
            List.countP_cons_of_neg _ _ (by simp [Item.isInput])
          have hcnt : its.countP (fun it => Item.isDflt it) = 0 := by
            rw [hcc] at h4
            omega
          have hds : st.default_specified = false := by
            cases hst : st.default_specified
            · rfl
            · have := h3 hst
              rw [hcc] at this
              omega
          show parseLoop fs ("-d" :: d :: flattenItems its) st = _
          rw [step_dflt fs "-d" d _ st (Or.inl rfl), if_neg (by simp [hds])]
          show _ = POut.ok (foldItems fs (stepItem fs st (Item.dflt d)) its)
          apply ih
          · intro hi
            have := h1 hi
            rwa [hic] at this
          · rwa [hic] at h2
          · intro _
            exact hcnt
          · omega
          · intro x hx
            exact h5 x (List.mem_cons_of_mem _ hx)
          · simpa [valNames, valPairs] using h6
          · intro n hn
            exact h7 n (by simpa [valNames, valPairs] using hn)
      | val n v =>
          have hic : (Item.val n v :: its).countP (fun it => Item.isInput it)
              = its.countP (fun it => Item.isInput it) :=
            List.countP_cons_of_neg _ _ (by simp [Item.isInput])
          have hdc : (Item.val n v :: its).countP (fun it => Item.isDflt it)
              = its.countP (fun it => Item.isDflt it) :=
            List.countP_cons_of_neg _ _ (by simp [Item.isDflt])
          have hne : '=' ∉ n.data := by
            have := h5 (Item.val n v) (List.mem_cons_self _ _)
            simpa [goodItem] using this
          have hfind : mfind st.args n = none :=
            h7 n (by simp [valNames, valPairs])
          show parseLoop fs ("-v" :: (n ++ "=" ++ v) :: flattenItems its) st = _
          rw [step_val fs "-v" (n ++ "=" ++ v) _ st (Or.inl rfl)]
          simp only [parse_val_append n v hne, hfind, Option.isSome_none,
            Bool.false_eq_true, if_false]
          show _ = POut.ok (foldItems fs (stepItem fs st (Item.val n v)) its)
          have hnd' := h6
          simp only [valNames, valPairs, List.map_cons, List.nodup_cons] at hnd'
          obtain ⟨hnotin, htl⟩ := hnd'
          apply ih
          · intro hi
            have := h1 hi
            rwa [hic] at this
          · rwa [hic] at h2
          · intro hds
            have := h3 hds
            rwa [hdc] at this
          · rwa [hdc] at h4
          · intro x hx
            exact h5 x (List.mem_cons_of_mem _ hx)
          · exact htl
          · intro m hm
            have hm' : m ∈ valNames its := hm
            have hmn : n ≠ m := by
              intro he
              subst he
              exact hnotin hm'
            rw [mfind_append_left_none st.args [(n, make_data v)] m
              (h7 m (by simpa [valNames, valPairs] using Or.inr hm'))]
            simp [mfind, hmn]

/-- C1: every argument vector assembled from exactly one input item
(positional template or `-i` file), exactly one `-d`, and any number of
well-formed `-v NAME=VALUE` items with pairwise-distinct names parses
successfully, and the resulting model's value map contains exactly the
supplied names, each bound to `make_data` of the raw string after the first
`'='` of its token. -/
theorem parse_args_valid_vector (fs : FS) (its : List Item)
    (hone : its.countP (fun it => Item.isInput it) = 1)
    (hdone : its.countP (fun it => Item.isDflt it) = 1)
    (hgood : ∀ it ∈ its, goodItem it = true)
    (hnd : (valNames its).Nodup) :
    ∃ st, parse_args fs (flattenItems its) = PResult.ok st
      ∧ st.args = valPairs its
      ∧ (∀ n v, Item.val n v ∈ its → mfind st.args n = some (make_data v))
      ∧ (∀ n, (mfind st.args n).isSome = true ↔ n ∈ valNames its) := by
  have hloop := parseLoop_flattenItems fs its initSt
    (fun h => by simp [initSt] at h)
    (le_of_eq hone)
    (fun h => by simp [initSt] at h)
    (le_of_eq hdone)
    hgood hnd
    (fun n _ => rfl)
  have hfin_in : (foldItems fs initSt its).input_specified = true := by
    rw [foldItems_input]
    have hpos : 0 < its.countP (fun it => Item.isInput it) := by omega
    obtain ⟨a, ha, hpa⟩ := List.countP_pos_iff.mp hpos
    simp [initSt]
    exact ⟨a, ha, hpa⟩
  have hfin_df : (foldItems fs initSt its).default_specified = true := by
    rw [foldItems_default]
    have hpos : 0 < its.countP (fun it => Item.isDflt it) := by omega
    obtain ⟨a, ha, hpa⟩ := List.countP_pos_iff.mp hpos
    simp [initSt]
    exact ⟨a, ha, hpa⟩
  have hfin_out : (foldItems fs initSt its).output_specified = false := by
    rw [foldItems_output]
    rfl
  have hfin_args : (foldItems fs initSt its).args = valPairs its := by
    rw [foldItems_args]
    simp [initSt]
  refine ⟨{ foldItems fs initSt its with out := Sink.stdout }, ?_, ?_, ?_, ?_⟩
  · unfold parse_args
    rw [hloop]
    show finishParse (foldItems fs initSt its) = _
    rw [finishParse_spec]
    simp [hfin_in, hfin_df, hfin_out]
  · exact hfin_args
  · intro n v hm
    show mfind (foldItems fs initSt its).args n = some (make_data v)
    rw [hfin_args]
    exact mfind_valPairs_of_mem its n v hnd hm
  · intro n
    show (mfind (foldItems fs initSt its).args n).isSome = true ↔ n ∈ valNames its
    rw [hfin_args]
    exact mfind_valPairs_isSome_iff its n

theorem parse_args_valid_vector_witness :
    ∃ st, parse_args fs0 (flattenItems [Item.pos "T", Item.dflt "x", Item.val "a" "1"])
        = PResult.ok st
      ∧ st.args = valPairs [Item.pos "T", Item.dflt "x", Item.val "a" "1"]
      ∧ (∀ n v, Item.val n v ∈ [Item.pos "T", Item.dflt "x", Item.val "a" "1"] →
          mfind st.args n = some (make_data v))
      ∧ (∀ n, (mfind st.args n).isSome = true
          ↔ n ∈ valNames [Item.pos "T", Item.dflt "x", Item.val "a" "1"]) :=
  parse_args_valid_vector fs0 [Item.pos "T", Item.dflt "x", Item.val "a" "1"]
    (by decide) (by decide) (by decide) (by decide)
end Siplus
